import Mathlib

/-
  Verification development for the IACUC protocol generator.

  The repository ships a Next.js frontend (wizard, review dashboard, API
  client) together with design documents describing a workflow engine
  (checkpoint state machine, branching engine, consistency validator,
  pipeline orchestrator).  The frontend components are embedded directly
  from their TypeScript source; the engine components, whose implementation
  is not part of the repository sources, are modelled from the
  specification text and, where the design documents carry the concrete
  rule data (question triggers, validation rules), from that data.
-/

namespace Iacuc

/-! ## Checkpoint state machine (spec section 4.3)

The review dashboard (review page component) and the HTTP client
(frontend/lib/api.ts) drive a backend checkpoint transition; the
transition function itself is not in the repository sources and is
modelled from the specification. -/

/-- Status of a checkpoint, per the data model: pending, approved,
rejected or revision_requested. -/
inductive CheckpointStatus
  | pending
  | approved
  | rejected
  | revision_requested
deriving DecidableEq, Repr

/-- A reviewer decision as submitted from the review dashboard: approve,
reject, or request revision. -/
inductive Decision
  | approve
  | reject
  | revision
deriving DecidableEq, Repr

/-- The checkpoint status a decision moves a pending checkpoint into. -/
def decisionStatus : Decision → CheckpointStatus
  | Decision.approve => CheckpointStatus.approved
  | Decision.reject => CheckpointStatus.rejected
  | Decision.revision => CheckpointStatus.revision_requested

/-- A checkpoint: id, ordinal position in the pipeline, status, reviewer
id and comments recorded by the deciding transition. -/
structure Checkpoint where
  cid : String
  position : Nat
  status : CheckpointStatus
  reviewerId : Option String
  comments : Option String
deriving DecidableEq, Repr

/-- Error conditions of the engine taxonomy that the checkpoint
transition can produce: InputError and InvalidTransition. -/
inductive EngineError
  | InputError
  | InvalidTransition
deriving DecidableEq, Repr

/-- True when a comments field is missing or empty. -/
def commentsMissing : Option String → Bool
  | none => true
  | some s => s == ""

/-- Modelled from the spec: the checkpoint transition function
decide(checkpoint, decision, reviewerId, comments) of section 4.3 is not
present under the repository sources (only the review UI and the HTTP
client are).  Only a pending checkpoint may be decided; rejected and
revision_requested decisions require non-empty comments; deciding an
already-decided checkpoint with the identical decision is a no-op success
returning the existing state, and with a different decision fails with
InvalidTransition. -/
def decideCheckpoint (c : Checkpoint) (d : Decision) (rid : String)
    (comments : Option String) : Except EngineError Checkpoint :=
  if c.status = CheckpointStatus.pending then
    if d ≠ Decision.approve ∧ commentsMissing comments then
      Except.error EngineError.InputError
    else
      Except.ok { c with
        status := decisionStatus d
        reviewerId := some rid
        comments := comments }
  else if decisionStatus d = c.status then
    Except.ok c
  else
    Except.error EngineError.InvalidTransition

/-- The three action kinds offered by the review dashboard dialog. -/
inductive ReviewActionType
  | approve
  | reject
  | revision
deriving DecidableEq, Repr

/-- Embedded from the review page component: the Confirm button of the
action dialog is disabled when an action is loading, or when the action
is not an approval and the comments textarea is empty. -/
def confirmDisabled (actionLoading : Bool) (t : ReviewActionType)
    (comments : String) : Bool :=
  actionLoading || (decide (t ≠ ReviewActionType.approve) && comments == "")

/-! ## Workflow instance and checkpoint history (spec sections 3, 4.3) -/

/-- An immutable history record appended on a checkpoint transition. -/
structure HistoryRecord where
  checkpointId : String
  position : Nat
  status : CheckpointStatus
  reviewerId : Option String
  comments : Option String
deriving DecidableEq, Repr

/-- The history record describing a checkpoint state. -/
def recordOf (c : Checkpoint) : HistoryRecord :=
  { checkpointId := c.cid
    position := c.position
    status := c.status
    reviewerId := c.reviewerId
    comments := c.comments }

/-- A workflow instance: current pipeline position, its checkpoints, and
the append-only checkpoint history. -/
structure WorkflowInstance where
  position : Nat
  checkpoints : List Checkpoint
  history : List HistoryRecord
deriving Repr

/-- The checkpoint of a workflow instance at pipeline position k. -/
def findCheckpoint (w : WorkflowInstance) (k : Nat) : Option Checkpoint :=
  w.checkpoints.find? (fun c => c.position == k)

/-- Modelled from the spec: applying a reviewer decision to the
checkpoint at position k of a workflow instance.  On success the
checkpoint is replaced by its decided state and a history record is
appended; approval advances the pipeline position while rejection or
revision returns it to the feeding stage k; on any error the instance is
unchanged. -/
def applyDecision (w : WorkflowInstance) (k : Nat) (d : Decision)
    (rid : String) (comments : Option String) : WorkflowInstance :=
  match findCheckpoint w k with
  | none => w
  | some c =>
    match decideCheckpoint c d rid comments with
    | Except.error _ => w
    | Except.ok c2 =>
      { position := if d = Decision.approve then w.position + 1 else k
        checkpoints := w.checkpoints.map (fun x => if x.cid == c.cid then c2 else x)
        history := w.history ++ [recordOf c2] }

/-- Modelled from the spec: a successful re-run of stage k after a
rejection creates a fresh pending checkpoint at position k and appends
its history record; prior checkpoints and history are untouched. -/
def stageRerun (w : WorkflowInstance) (k : Nat) (newId : String) : WorkflowInstance :=
  let c : Checkpoint :=
    { cid := newId
      position := k
      status := CheckpointStatus.pending
      reviewerId := none
      comments := none }
  { position := k
    checkpoints := w.checkpoints ++ [c]
    history := w.history ++ [recordOf c] }

/-! ## Branching engine (spec section 4.1)

The engine itself is modelled from the specification; the concrete
branch-rule data for the surgery-type question is embedded from the
QuestionSchema in the architecture blueprint document. -/

/-- A branch rule: source question id, triggering answer value, and the
set of additionally-required question ids it contributes. -/
structure BranchRule where
  source : String
  triggerValue : String
  adds : List String
deriving DecidableEq, Repr

/-- The rule registry: the base set of always-required question ids and
the branch rules. -/
structure RuleRegistry where
  baseRequired : List String
  rules : List BranchRule
deriving Repr

/-- An answer store, as an append-only list of question-id/value pairs;
a later append for the same question id supersedes an earlier one. -/
def AnswerStore : Type := List (String × String)

/-- The current (non-superseded) answer for a question id: the last
appended value for that id, if any. -/
def currentAnswer (store : AnswerStore) (q : String) : Option String :=
  match (List.filter (fun p => p.1 == q) store).getLast? with
  | some p => some p.2
  | none => none

/-- Modelled from the spec: the union of the additionally-required
question sets of every branch rule whose trigger matches a current
answer of the store. -/
def triggeredAdds (reg : RuleRegistry) (store : AnswerStore) : Finset String :=
  reg.rules.foldl
    (fun acc r =>
      if currentAnswer store r.source == some r.triggerValue then
        acc ∪ r.adds.toFinset
      else acc)
    ∅

/-- Modelled from the spec: one application of the branch rules to a
working required set — union in the base set and every triggered rule
result. -/
def applyRules (reg : RuleRegistry) (store : AnswerStore) (s : Finset String) :
    Finset String :=
  s ∪ reg.baseRequired.toFinset ∪ triggeredAdds reg store

/-- Modelled from the spec: nextRequired(answerStore, ruleRegistry) of
section 4.1 is not present under the repository sources; it computes the
required-question set by rule application starting from the empty
working set. -/
def nextRequired (store : AnswerStore) (reg : RuleRegistry) : Finset String :=
  applyRules reg store ∅

/-- Branch rules of the surgery-type question, embedded from the
QuestionSchema triggers in the architecture blueprint document:
major_survival triggers multiple_surgery_justification, aseptic_technique
and post_op_care; minor_survival triggers aseptic_technique and
post_op_care; non_survival triggers anesthesia_protocol and
euthanasia_method. -/
def surgeryTypeRules : List BranchRule :=
  [ { source := "surgery_type"
      triggerValue := "major_survival"
      adds := ["multiple_surgery_justification", "aseptic_technique", "post_op_care"] },
    { source := "surgery_type"
      triggerValue := "minor_survival"
      adds := ["aseptic_technique", "post_op_care"] },
    { source := "surgery_type"
      triggerValue := "non_survival"
      adds := ["anesthesia_protocol", "euthanasia_method"] } ]

/-- The rule registry holding the surgery-type branch rules. -/
def surgeryRegistry : RuleRegistry :=
  { baseRequired := []
    rules := surgeryTypeRules }

/-! ## Consistency validator (spec section 4.2)

The validator is modelled from the specification; the counts-sum rule
is embedded from the ValidationRules data of the architecture blueprint
document (animal_numbers_consistent). -/

/-- A document field value; absent is a distinguished value so rules can
tell a missing field from an explicitly empty one. -/
inductive FieldValue
  | absent
  | str (s : String)
  | num (n : Int)
  | numList (ns : List Int)
deriving DecidableEq, Repr

/-- The document aggregate: a field-path to value mapping with a version
counter. -/
structure DocumentAggregate where
  fields : List (String × FieldValue)
  version : Nat
deriving Repr

/-- Look a field path up in the aggregate; missing paths read as the
distinguished absent value. -/
def getField (d : DocumentAggregate) (path : String) : FieldValue :=
  match d.fields.find? (fun p => p.1 == path) with
  | some p => p.2
  | none => FieldValue.absent

/-- Severity of a validation rule and of a finding. -/
inductive Severity
  | error
  | warning
deriving DecidableEq, Repr

/-- Errors sort before warnings. -/
def severityRank : Severity → Nat
  | Severity.error => 0
  | Severity.warning => 1

/-- A validation rule: id, severity and a predicate over the aggregate;
the predicate returns none to model a thrown exception inside the rule. -/
structure ValidationRule where
  rid : String
  severity : Severity
  check : DocumentAggregate → Option Bool

/-- A finding produced by one rule on one validation pass. -/
structure Finding where
  rid : String
  severity : Severity
  message : String
deriving DecidableEq, Repr

/-- Modelled from the spec: the finding a single rule contributes — none
on a pass, a finding with the rule's severity on a violation, and a
synthetic error finding naming the rule when its predicate fails to
evaluate. -/
def findingOf (r : ValidationRule) (d : DocumentAggregate) : Option Finding :=
  match r.check d with
  | some true => none
  | some false => some { rid := r.rid, severity := r.severity, message := "rule violated" }
  | none => some { rid := r.rid, severity := Severity.error, message := "rule evaluation failed" }

/-- Lexicographic order on character lists by code point. -/
def charsLeb : List Char → List Char → Bool
  | [], _ => true
  | _ :: _, [] => false
  | a :: as, b :: bs =>
    if a.toNat < b.toNat then true
    else if b.toNat < a.toNat then false
    else charsLeb as bs

/-- Lexicographic order on strings by code point, used to break severity
ties between findings by rule id. -/
def strLeb (a b : String) : Bool := charsLeb a.data b.data

/-- The finding ordering: errors before warnings, ties broken by rule id. -/
def findingLeb (f g : Finding) : Bool :=
  decide (severityRank f.severity < severityRank g.severity)
  || (severityRank f.severity == severityRank g.severity && strLeb f.rid g.rid)

/-- The finding ordering as a relation. -/
def findingLE (f g : Finding) : Prop := findingLeb f g = true

instance : DecidableRel findingLE := fun f g => by
  unfold findingLE
  exact Bool.decEq _ _

/-- Modelled from the spec: validate(documentAggregate, rules) of
section 4.2 is not present under the repository sources; it runs every
rule independently and sorts the findings by severity then rule id. -/
def validate (d : DocumentAggregate) (rules : List ValidationRule) : List Finding :=
  List.insertionSort findingLE (rules.filterMap (fun r => findingOf r d))

/-- The counts-sum rule, embedded from the blueprint ValidationRules
data: the sum of all group breakdowns must equal the declared total,
severity error. -/
def animalNumbersConsistent : ValidationRule :=
  { rid := "animal_numbers_consistent"
    severity := Severity.error
    check := fun d =>
      match getField d "animals.species_groups",
            getField d "animals.total_animals_requested" with
      | FieldValue.numList ns, FieldValue.num t =>
        some (ns.foldl (fun a b => a + b) 0 == t)
      | _, _ => some true }

/-- A document aggregate carrying subgroup counts and a declared total. -/
def docWithCounts (counts : List Int) (total : Int) : DocumentAggregate :=
  { fields :=
      [ ("animals.species_groups", FieldValue.numList counts),
        ("animals.total_animals_requested", FieldValue.num total) ]
    version := 0 }

/-! ## Pipeline retry behaviour (spec sections 4.4, 7) -/

/-- Outcome of one attempt at running a stage generator. -/
inductive StageOutcome
  | success
  | transientFailure
deriving DecidableEq, Repr

/-- Observable progress status of a stage execution. -/
inductive PipeStatus
  | running
  | progressed
  | stalled
deriving DecidableEq, Repr

/-- Execution state of one stage: how many retries were consumed and the
current progress status. -/
structure StageState where
  retriesUsed : Nat
  status : PipeStatus
deriving DecidableEq, Repr

/-- The stage state before any attempt. -/
def initialStage : StageState :=
  { retriesUsed := 0, status := PipeStatus.running }

/-- Modelled from the spec: one attempt of a stage under a configured
retry bound.  A success progresses; a transient failure consumes a retry
while any remain, and escalates to StalledPipeline once the bound is
exhausted; progressed and stalled states absorb further events. -/
def stageStep (bound : Nat) (s : StageState) (o : StageOutcome) : StageState :=
  match s.status with
  | PipeStatus.progressed => s
  | PipeStatus.stalled => s
  | PipeStatus.running =>
    match o with
    | StageOutcome.success => { s with status := PipeStatus.progressed }
    | StageOutcome.transientFailure =>
      if s.retriesUsed < bound then
        { retriesUsed := s.retriesUsed + 1, status := PipeStatus.running }
      else
        { s with status := PipeStatus.stalled }

/-- The stage state after a sequence of attempt outcomes. -/
def runStage (bound : Nat) (outcomes : List StageOutcome) : StageState :=
  outcomes.foldl (stageStep bound) initialStage

/-- All intermediate stage states observed along a sequence of attempt
outcomes, the initial state included. -/
def stageTrace (bound : Nat) (outcomes : List StageOutcome) : List StageState :=
  List.scanl (stageStep bound) initialStage outcomes

/-! ## Protocol wizard: animals step (frontend wizard animals-step component) -/

/-- An animal group of the wizard's Animals step, embedded from the
AnimalData interface; the numeric field is an integer since the UI
parses it with parseInt (defaulting to 0). -/
structure AnimalData where
  species : String
  strain : String
  sex : String
  total_number : Int
  source : String
  genetic_modification : String
deriving DecidableEq, Repr

/-- Embedded from the animals-step component: addAnimal appends the new
group only when species is non-empty, total_number is positive and
source is non-empty; otherwise the list is unchanged. -/
def addAnimal (animals : List AnimalData) (newAnimal : AnimalData) : List AnimalData :=
  if newAnimal.species ≠ "" ∧ 0 < newAnimal.total_number ∧ newAnimal.source ≠ "" then
    animals ++ [newAnimal]
  else
    animals

/-- Embedded from the animals-step component: removeAnimal filters the
group at the given index out of the list. -/
def removeAnimal (animals : List AnimalData) (index : Nat) : List AnimalData :=
  (animals.enum.filter (fun p => p.1 != index)).map Prod.snd

/-- Embedded from the animals-step component: the Add Animal Group
button is disabled when species is empty, total_number is not positive,
or source is empty. -/
def addButtonDisabled (newAnimal : AnimalData) : Bool :=
  newAnimal.species == ""
  || decide (newAnimal.total_number ≤ 0)
  || newAnimal.source == ""

/-- The invariant of the animals list: every group has a non-empty
species, a non-empty source and a positive total_number. -/
def validAnimal (a : AnimalData) : Prop :=
  a.species ≠ "" ∧ a.source ≠ "" ∧ 0 < a.total_number

/-! ## Protocol wizard: steps, gating and submission (frontend new-protocol page) -/

/-- Basic-information step data, embedded from the BasicInfoData
interface. -/
structure BasicInfoData where
  title : String
  pi_name : String
  pi_email : String
  department : String
  funding_sources : String
  study_duration : String
  lay_summary : String
deriving DecidableEq, Repr

/-- Animals step data, embedded from the AnimalsStepData interface. -/
structure AnimalsStepData where
  animals : List AnimalData
  usda_category : String
  animal_number_justification : String
deriving DecidableEq, Repr

/-- Rationale step data, embedded from the RationaleStepData interface. -/
structure RationaleStepData where
  scientific_objectives : String
  scientific_rationale : String
  potential_benefits : String
deriving DecidableEq, Repr

/-- Procedures step data, embedded from the ProceduresStepData
interface. -/
structure ProceduresStepData where
  experimental_design : String
  statistical_methods : String
  procedures_description : String
  anesthesia_protocol : String
  analgesia_protocol : String
  euthanasia_method : String
deriving DecidableEq, Repr

/-- Welfare step data, embedded from the WelfareStepData interface. -/
structure WelfareStepData where
  replacement_statement : String
  reduction_statement : String
  refinement_statement : String
  humane_endpoints : String
  monitoring_schedule : String
deriving DecidableEq, Repr

/-- The whole wizard state, embedded from the WizardData interface. -/
structure WizardData where
  basicInfo : BasicInfoData
  animals : AnimalsStepData
  rationale : RationaleStepData
  procedures : ProceduresStepData
  welfare : WelfareStepData
deriving DecidableEq, Repr

/-- Embedded from the new-protocol page: canProceed gates the Next
button per wizard step — basic info needs a title of at least ten
characters plus PI name, email and department; the animals step needs a
non-empty animals list; rationale needs objectives and rationale;
procedures needs experimental design and euthanasia method; welfare
needs the three 3Rs statements and humane endpoints; later steps always
proceed. -/
def canProceed (currentStep : Nat) (d : WizardData) : Bool :=
  match currentStep with
  | 0 =>
    decide (10 ≤ d.basicInfo.title.length)
    && decide (0 < d.basicInfo.pi_name.length)
    && decide (0 < d.basicInfo.pi_email.length)
    && decide (0 < d.basicInfo.department.length)
  | 1 => decide (0 < d.animals.animals.length)
  | 2 =>
    decide (0 < d.rationale.scientific_objectives.length)
    && decide (0 < d.rationale.scientific_rationale.length)
  | 3 =>
    decide (0 < d.procedures.experimental_design.length)
    && decide (0 < d.procedures.euthanasia_method.length)
  | 4 =>
    decide (0 < d.welfare.replacement_statement.length)
    && decide (0 < d.welfare.reduction_statement.length)
    && decide (0 < d.welfare.refinement_statement.length)
    && decide (0 < d.welfare.humane_endpoints.length)
  | _ => true

/-- The fixed placeholder text handleSubmit substitutes for an empty lay
summary, embedded verbatim from the new-protocol page. -/
def placeholderLaySummary : String :=
  "This section will describe the research project in plain language that can be understood by non-scientists. To be completed with project-specific details."

/-- Embedded from handleSubmit of the new-protocol page: the lay_summary
sent in the update request is the entered text when truthy (non-empty),
and the placeholder otherwise. -/
def submittedLaySummary (entered : String) : String :=
  if entered = "" then placeholderLaySummary else entered

/-- Replace the lay summary of a wizard state, leaving every other field
alone. -/
def setLaySummary (d : WizardData) (s : String) : WizardData :=
  { d with basicInfo := { d.basicInfo with lay_summary := s } }

/-! ## Concrete fixtures used by witness theorems -/

/-- A pending checkpoint at pipeline position 1. -/
def pendingCheckpoint : Checkpoint :=
  { cid := "cp1"
    position := 1
    status := CheckpointStatus.pending
    reviewerId := none
    comments := none }

/-- An already-approved checkpoint at pipeline position 1. -/
def approvedCheckpoint : Checkpoint :=
  { cid := "cp1"
    position := 1
    status := CheckpointStatus.approved
    reviewerId := some "r1"
    comments := none }

/-- A workflow instance holding one pending checkpoint at position 1. -/
def sampleWorkflow : WorkflowInstance :=
  { position := 1
    checkpoints := [pendingCheckpoint]
    history := [recordOf pendingCheckpoint] }

/-- A valid animal group as entered in the wizard. -/
def sampleAnimal : AnimalData :=
  { species := "Mouse"
    strain := "C57BL/6J"
    sex := "both"
    total_number := 40
    source := "Jackson Laboratory"
    genetic_modification := "" }

/-- A wizard state with every field still blank. -/
def sampleWizard : WizardData :=
  { basicInfo :=
      { title := ""
        pi_name := ""
        pi_email := ""
        department := ""
        funding_sources := ""
        study_duration := ""
        lay_summary := "" }
    animals :=
      { animals := []
        usda_category := ""
        animal_number_justification := "" }
    rationale :=
      { scientific_objectives := ""
        scientific_rationale := ""
        potential_benefits := "" }
    procedures :=
      { experimental_design := ""
        statistical_methods := ""
        procedures_description := ""
        anesthesia_protocol := ""
        analgesia_protocol := ""
        euthanasia_method := "" }
    welfare :=
      { replacement_statement := ""
        reduction_statement := ""
        refinement_statement := ""
        humane_endpoints := ""
        monitoring_schedule := "" } }

/-- The state a checkpoint takes when a reviewer rejects it. -/
def rejectedVersion (c : Checkpoint) (rid cm : String) : Checkpoint :=
  { c with
    status := CheckpointStatus.rejected
    reviewerId := some rid
    comments := some cm }

/-- The fresh pending checkpoint created at position k when its feeding
stage re-runs successfully. -/
def newPendingCheckpoint (nid : String) (k : Nat) : Checkpoint :=
  { cid := nid
    position := k
    status := CheckpointStatus.pending
    reviewerId := none
    comments := none }

/-! ## Helper lemmas on the finding order -/

/-- Lexicographic order on character lists is total. -/
theorem charsLeb_total : ∀ (a b : List Char), charsLeb a b = true ∨ charsLeb b a = true
  | [], _ => Or.inl rfl
  | _ :: _, [] => Or.inr rfl
  | a :: as, b :: bs => by
    by_cases hab : a.toNat < b.toNat
    · left
      simp [charsLeb, hab]
    · by_cases hba : b.toNat < a.toNat
      · right
        simp [charsLeb, hba]
      · rcases charsLeb_total as bs with h | h
        · left
          simp [charsLeb, hab, hba, h]
        · right
          simp [charsLeb, hab, hba, h]

/-- Lexicographic order on character lists is transitive. -/
theorem charsLeb_trans : ∀ (a b c : List Char),
    charsLeb a b = true → charsLeb b c = true → charsLeb a c = true
  | [], _, _, _, _ => rfl
  | _ :: _, [], _, h1, _ => by simp [charsLeb] at h1
  | _ :: _, _ :: _, [], _, h2 => by simp [charsLeb] at h2
  | a :: as, b :: bs, c :: cs, h1, h2 => by
    by_cases hab : a.toNat < b.toNat
    · by_cases hbc : b.toNat < c.toNat
      · simp [charsLeb, Nat.lt_trans hab hbc]
      · by_cases hcb : c.toNat < b.toNat
        · simp [charsLeb, hbc, hcb] at h2
        · have hac : a.toNat < c.toNat := by omega
          simp [charsLeb, hac]
    · by_cases hba : b.toNat < a.toNat
      · simp [charsLeb, hab, hba] at h1
      · by_cases hbc : b.toNat < c.toNat
        · have hac : a.toNat < c.toNat := by omega
          simp [charsLeb, hac]
        · by_cases hcb : c.toNat < b.toNat
          · simp [charsLeb, hbc, hcb] at h2
          · have hac : ¬ a.toNat < c.toNat := by omega
            have hca : ¬ c.toNat < a.toNat := by omega
            simp [charsLeb, hab, hba] at h1
            simp [charsLeb, hbc, hcb] at h2
            simp [charsLeb, hac, hca]
            exact charsLeb_trans as bs cs h1 h2

instance : IsTotal Finding findingLE :=
  ⟨fun f g => by
    unfold findingLE findingLeb strLeb
    rcases Nat.lt_trichotomy (severityRank f.severity) (severityRank g.severity) with h | h | h
    · left
      simp [h]
    · rcases charsLeb_total f.rid.data g.rid.data with hc | hc
      · left
        simp [h, hc]
      · right
        simp [h, hc]
    · right
      simp [h]⟩

instance : IsTrans Finding findingLE :=
  ⟨fun f g h hfg hgh => by
    unfold findingLE findingLeb strLeb at hfg hgh ⊢
    simp only [Bool.or_eq_true, Bool.and_eq_true, decide_eq_true_eq, beq_iff_eq] at hfg hgh ⊢
    rcases hfg with h1 | ⟨h1, hc1⟩
    · rcases hgh with h2 | ⟨h2, hc2⟩
      · exact Or.inl (Nat.lt_trans h1 h2)
      · exact Or.inl (h2 ▸ h1)
    · rcases hgh with h2 | ⟨h2, hc2⟩
      · exact Or.inl (h1 ▸ h2)
      · exact Or.inr ⟨h1.trans h2, charsLeb_trans _ _ _ hc1 hc2⟩⟩

/-! ## Claim theorems -/

/-- C1: a rejected or revision_requested decision whose comments are
missing or empty is rejected as InputError and not applied, while an
approved decision may omit comments and still succeeds; the review
dialog's Confirm button enforces the same rule, being disabled for a
non-approval with empty comments and enabled for an approval without
comments. -/
theorem checkpoint_comments_required (c : Checkpoint) (rid : String)
    (hp : c.status = CheckpointStatus.pending) :
    decideCheckpoint c Decision.reject rid none = Except.error EngineError.InputError
    ∧ decideCheckpoint c Decision.revision rid none = Except.error EngineError.InputError
    ∧ decideCheckpoint c Decision.reject rid (some "") = Except.error EngineError.InputError
    ∧ decideCheckpoint c Decision.revision rid (some "") = Except.error EngineError.InputError
    ∧ (∃ c2, decideCheckpoint c Decision.approve rid none = Except.ok c2
        ∧ c2.status = CheckpointStatus.approved)
    ∧ confirmDisabled false ReviewActionType.reject "" = true
    ∧ confirmDisabled false ReviewActionType.revision "" = true
    ∧ confirmDisabled false ReviewActionType.approve "" = false := by
  refine ⟨?_, ?_, ?_, ?_, ?_, by decide, by decide, by decide⟩
  · simp [decideCheckpoint, hp, commentsMissing]
  · simp [decideCheckpoint, hp, commentsMissing]
  · simp [decideCheckpoint, hp, commentsMissing]
  · simp [decideCheckpoint, hp, commentsMissing]
  · refine ⟨{ c with
      status := CheckpointStatus.approved
      reviewerId := some rid
      comments := none }, ?_, rfl⟩
    simp [decideCheckpoint, hp, decisionStatus]

/-- Witness for C1 at a concrete pending checkpoint. -/
theorem checkpoint_comments_required_witness :
    decideCheckpoint pendingCheckpoint Decision.reject "r1" none
      = Except.error EngineError.InputError :=
  (checkpoint_comments_required pendingCheckpoint "r1" rfl).1

/-- C2: deciding a non-pending checkpoint with a decision different from
the recorded one fails with InvalidTransition (the instance state is
unchanged, no new checkpoint state being produced), while repeating the
identical decision is a no-op success returning the existing state. -/
theorem checkpoint_invalid_transition (c : Checkpoint) (d : Decision) (rid : String)
    (comments : Option String) (hnp : c.status ≠ CheckpointStatus.pending) :
    (decisionStatus d ≠ c.status →
      decideCheckpoint c d rid comments = Except.error EngineError.InvalidTransition)
    ∧ (decisionStatus d = c.status →
      decideCheckpoint c d rid comments = Except.ok c) := by
  constructor
  · intro h
    simp [decideCheckpoint, hnp, h]
  · intro h
    simp [decideCheckpoint, hnp, h]

/-- Witness for C2 at a concrete already-approved checkpoint: a second,
different decision errors and an identical retry is a no-op success. -/
theorem checkpoint_invalid_transition_witness :
    decideCheckpoint approvedCheckpoint Decision.reject "r2" (some "issues")
      = Except.error EngineError.InvalidTransition
    ∧ decideCheckpoint approvedCheckpoint Decision.approve "r2" none
      = Except.ok approvedCheckpoint :=
  ⟨(checkpoint_invalid_transition approvedCheckpoint Decision.reject "r2" (some "issues")
      (by decide)).1 (by decide),
   (checkpoint_invalid_transition approvedCheckpoint Decision.approve "r2" none
      (by decide)).2 (by decide)⟩

/-- C3: with subgroup counts 12, 8 and 20 and declared total 40, validate
yields no error finding for the counts-sum rule; with declared total 39
it yields exactly one error finding naming that rule. -/
theorem counts_sum_rule_scenario :
    (validate (docWithCounts [12, 8, 20] 40) [animalNumbersConsistent]).filter
        (fun f => decide (f.severity = Severity.error)
          && (f.rid == "animal_numbers_consistent")) = []
    ∧ ((validate (docWithCounts [12, 8, 20] 39) [animalNumbersConsistent]).filter
        (fun f => decide (f.severity = Severity.error)
          && (f.rid == "animal_numbers_consistent"))).length = 1 := by
  decide

/-- C4 counterexample: per the blueprint's QuestionSchema triggers,
answering the surgery-type question with a survival-surgery value
(major_survival or minor_survival) does not add surgeon_training,
aseptic_confirmation or post_op_monitoring to the required set — that
triple appears only under the schema's validation requires_fields; the
trigger of major_survival contributes multiple_surgery_justification
instead. -/
theorem branching_survival_counterexample :
    "surgeon_training" ∉ nextRequired [("surgery_type", "major_survival")] surgeryRegistry
    ∧ "aseptic_confirmation" ∉ nextRequired [("surgery_type", "major_survival")] surgeryRegistry
    ∧ "post_op_monitoring" ∉ nextRequired [("surgery_type", "major_survival")] surgeryRegistry
    ∧ "surgeon_training" ∉ nextRequired [("surgery_type", "minor_survival")] surgeryRegistry
    ∧ "multiple_surgery_justification"
        ∈ nextRequired [("surgery_type", "major_survival")] surgeryRegistry := by
  decide

/-- C4 amended: answering the surgery-type question with major_survival
adds multiple_surgery_justification, aseptic_technique and post_op_care
to the required set, and superseding that answer with non_survival
removes those three and adds anesthesia_protocol and euthanasia_method. -/
theorem branching_survival_scenario :
    nextRequired [("surgery_type", "major_survival")] surgeryRegistry
      = {"multiple_surgery_justification", "aseptic_technique", "post_op_care"}
    ∧ nextRequired
        [("surgery_type", "major_survival"), ("surgery_type", "non_survival")]
        surgeryRegistry
      = {"anesthesia_protocol", "euthanasia_method"}
    ∧ "multiple_surgery_justification" ∉ nextRequired
        [("surgery_type", "major_survival"), ("surgery_type", "non_survival")]
        surgeryRegistry
    ∧ "aseptic_technique" ∉ nextRequired
        [("surgery_type", "major_survival"), ("surgery_type", "non_survival")]
        surgeryRegistry
    ∧ "post_op_care" ∉ nextRequired
        [("surgery_type", "major_survival"), ("surgery_type", "non_survival")]
        surgeryRegistry := by
  decide

/-- C5: nextRequired is a fixed point of rule application — applying the
branch rules once more to the computed required set changes nothing, so
recomputing with no new answers yields the identical set. -/
theorem nextRequired_fixed_point (store : AnswerStore) (reg : RuleRegistry) :
    applyRules reg store (nextRequired store reg) = nextRequired store reg
    ∧ nextRequired store reg = nextRequired store reg := by
  refine ⟨?_, rfl⟩
  unfold nextRequired applyRules
  ext x
  simp [Finset.mem_union]
  tauto

/-- C6: validate is referentially transparent — two runs with no
intervening merge return the identical findings list — and the output is
sorted with errors before warnings and ties broken by rule id. -/
theorem validate_deterministic_sorted (d : DocumentAggregate) (rules : List ValidationRule) :
    validate d rules = validate d rules
    ∧ List.Sorted findingLE (validate d rules) :=
  ⟨rfl, List.sorted_insertionSort findingLE _⟩

/-- C7: with retry bound 2, two transient failures leave the stage still
running, a third failure escalates to StalledPipeline, and a transient
failure followed by a success progresses with no stalled state ever
observed along the trace. -/
theorem retry_bound_scenario :
    (runStage 2 [StageOutcome.transientFailure, StageOutcome.transientFailure,
        StageOutcome.transientFailure]).status = PipeStatus.stalled
    ∧ (runStage 2 [StageOutcome.transientFailure, StageOutcome.transientFailure]).status
      = PipeStatus.running
    ∧ (runStage 2 [StageOutcome.transientFailure, StageOutcome.success]).status
      = PipeStatus.progressed
    ∧ (stageTrace 2 [StageOutcome.transientFailure, StageOutcome.success]).all
        (fun st => decide (st.status ≠ PipeStatus.stalled)) = true := by
  decide

/-- C8: checkpoint history is append-only — a decision and a stage
re-run each extend the history by a suffix, never modifying or removing
existing records; in particular rejecting the pending checkpoint at
position k and then re-running its feeding stage appends the rejected
record and a fresh pending record at position k, leaving the prior
history intact. -/
theorem checkpoint_history_append_only (w : WorkflowInstance) (k : Nat)
    (rid cm newId : String) (c : Checkpoint)
    (hfind : findCheckpoint w k = some c)
    (hp : c.status = CheckpointStatus.pending) (hcm : cm ≠ "") :
    (∀ (d : Decision) (comments : Option String), ∃ t,
        (applyDecision w k d rid comments).history = w.history ++ t)
    ∧ (∀ nid, (stageRerun w k nid).history
        = w.history ++ [recordOf (newPendingCheckpoint nid k)])
    ∧ (applyDecision w k Decision.reject rid (some cm)).history
        = w.history ++ [recordOf (rejectedVersion c rid cm)]
    ∧ (stageRerun (applyDecision w k Decision.reject rid (some cm)) k newId).history
        = w.history ++ [recordOf (rejectedVersion c rid cm),
            recordOf (newPendingCheckpoint newId k)]
    ∧ newPendingCheckpoint newId k
        ∈ (stageRerun (applyDecision w k Decision.reject rid (some cm)) k newId).checkpoints := by
  have hdc : decideCheckpoint c Decision.reject rid (some cm)
      = Except.ok (rejectedVersion c rid cm) := by
    simp [decideCheckpoint, hp, commentsMissing, decisionStatus, rejectedVersion, hcm]
  have happ : applyDecision w k Decision.reject rid (some cm)
      = { position := k
          checkpoints := w.checkpoints.map
            (fun x => if x.cid == c.cid then rejectedVersion c rid cm else x)
          history := w.history ++ [recordOf (rejectedVersion c rid cm)] } := by
    unfold applyDecision
    rw [hfind]
    dsimp only
    rw [hdc]
    simp
  refine ⟨?_, fun nid => rfl, ?_, ?_, ?_⟩
  · intro d comments
    unfold applyDecision
    rw [hfind]
    dsimp only
    cases hdc2 : decideCheckpoint c d rid comments with
    | error e => exact ⟨[], by simp⟩
    | ok c2 => exact ⟨[recordOf c2], rfl⟩
  · rw [happ]
  · rw [happ]
    simp [stageRerun, newPendingCheckpoint]
  · rw [happ]
    simp [stageRerun, newPendingCheckpoint]

/-- Witness for C8 at a concrete one-checkpoint workflow. -/
theorem checkpoint_history_append_only_witness :
    (stageRerun sampleWorkflow 1 "cp2").history
      = sampleWorkflow.history ++ [recordOf (newPendingCheckpoint "cp2" 1)] :=
  ((checkpoint_history_append_only sampleWorkflow 1 "r1" "fix the numbers" "cp2"
      pendingCheckpoint rfl rfl (by decide)).2.1) "cp2"

/-- Helper: removing an animal group only filters the list, so every
member of the result was a member of the input. -/
theorem mem_of_mem_removeAnimal {animals : List AnimalData} {i : Nat} {x : AnimalData}
    (hx : x ∈ removeAnimal animals i) : x ∈ animals := by
  unfold removeAnimal at hx
  have hsub : List.Sublist ((animals.enum.filter (fun p => p.1 != i)).map Prod.snd)
      (animals.enum.map Prod.snd) :=
    List.Sublist.map Prod.snd (List.filter_sublist _)
  rw [List.enum_map_snd] at hsub
  exact hsub.subset hx

/-- C9: every animal group in the wizard's list has a non-empty species,
a non-empty source and a positive count — addAnimal appends only groups
satisfying all three conditions (and the Add button is disabled exactly
when one fails), removeAnimal only filters, so both operations preserve
the invariant. -/
theorem animals_step_invariant (animals : List AnimalData) (a : AnimalData) (i : Nat)
    (h : ∀ x ∈ animals, validAnimal x) :
    (∀ x ∈ addAnimal animals a, validAnimal x)
    ∧ (∀ x ∈ removeAnimal animals i, validAnimal x)
    ∧ (addButtonDisabled a = false → validAnimal a)
    ∧ (addButtonDisabled a = true → addAnimal animals a = animals) := by
  refine ⟨?_, ?_, ?_, ?_⟩
  · intro x hx
    by_cases hg : a.species ≠ "" ∧ 0 < a.total_number ∧ a.source ≠ ""
    · simp only [addAnimal, if_pos hg] at hx
      rcases List.mem_append.mp hx with hx2 | hx2
      · exact h x hx2
      · rcases List.mem_singleton.mp hx2 with rfl
        exact ⟨hg.1, hg.2.2, hg.2.1⟩
    · simp only [addAnimal, if_neg hg] at hx
      exact h x hx
  · intro x hx
    exact h x (mem_of_mem_removeAnimal hx)
  · intro hdis
    unfold addButtonDisabled at hdis
    simp only [Bool.or_eq_false_iff, beq_eq_false_iff_ne, decide_eq_false_iff_not,
      not_le] at hdis
    obtain ⟨⟨h1, h2⟩, h3⟩ := hdis
    exact ⟨h1, h3, h2⟩
  · intro hdis
    unfold addButtonDisabled at hdis
    simp only [Bool.or_eq_true, beq_iff_eq, decide_eq_true_eq] at hdis
    unfold addAnimal
    rw [if_neg]
    rintro ⟨hg1, hg2, hg3⟩
    rcases hdis with (h1 | h2) | h3
    · exact hg1 h1
    · omega
    · exact hg3 h3

/-- Witness for C9: adding a concrete valid group to the empty list
keeps the invariant, hence the group itself is valid. -/
theorem animals_step_invariant_witness : validAnimal sampleAnimal :=
  (animals_step_invariant [] sampleAnimal 0 (by simp)).1 sampleAnimal (by decide)

/-- C10: the lay summary sent on wizard submission equals the entered
text when non-empty and a fixed non-empty placeholder otherwise, so the
created protocol never has an empty lay summary, while no canProceed
step gate depends on the lay summary field. -/
theorem lay_summary_never_empty (d : WizardData) (s : String) (step : Nat) :
    (d.basicInfo.lay_summary ≠ "" →
      submittedLaySummary d.basicInfo.lay_summary = d.basicInfo.lay_summary)
    ∧ (d.basicInfo.lay_summary = "" →
      submittedLaySummary d.basicInfo.lay_summary = placeholderLaySummary)
    ∧ submittedLaySummary d.basicInfo.lay_summary ≠ ""
    ∧ canProceed step (setLaySummary d s) = canProceed step d := by
  refine ⟨?_, ?_, ?_, ?_⟩
  · intro hne
    simp [submittedLaySummary, hne]
  · intro he
    simp [submittedLaySummary, he]
  · unfold submittedLaySummary
    split
    · decide
    · next hne => exact hne
  · rcases step with _ | (_ | (_ | (_ | (_ | step2)))) <;>
      simp [canProceed, setLaySummary]

/-- Witness for C10 at a blank wizard state: the submitted lay summary
is the placeholder and is non-empty. -/
theorem lay_summary_never_empty_witness :
    submittedLaySummary sampleWizard.basicInfo.lay_summary = placeholderLaySummary
    ∧ submittedLaySummary sampleWizard.basicInfo.lay_summary ≠ "" :=
  ⟨(lay_summary_never_empty sampleWizard "x" 0).2.1 rfl,
   (lay_summary_never_empty sampleWizard "x" 0).2.2.1⟩

end Iacuc
